import Mathlib

/-
Verification development for the kanban-board backend (src/backend/server.py).

The Python source is shallowly embedded: every endpoint handler becomes a pure
Lean function over an explicit application state (the five Mongo collections
plus the WebSocket connection registry), fallible handlers return an
`Except Err` value together with the resulting state, and the Python standard
library behaviours the handlers rely on (`datetime.isoformat`,
`datetime.fromisoformat`, `str.replace`, `json.dumps`, list iteration with
in-loop `remove`) are modelled by executable Lean functions.  Positions
(Python floats used as exact decimal steps of 1000 or caller-chosen
midpoints) are modelled as rationals.
-/

namespace Kanban

/-! ## Model of the Python datetime ISO-8601 codec

`datetime.isoformat` on an aware UTC datetime prints
`YYYY-MM-DDTHH:MM:SS[.ffffff]+00:00` (the fractional part appears exactly
when the microsecond field is nonzero); `datetime.fromisoformat` parses that
format back, validating calendar ranges, and raises on anything malformed.
The app only ever constructs UTC datetimes, so the model carries no offset
field and the printer always emits the `+00:00` suffix. -/

/-- Decimal digit character for a digit value 0 to 9. -/
def digitChar : Nat → Char
  | 0 => '0' | 1 => '1' | 2 => '2' | 3 => '3' | 4 => '4'
  | 5 => '5' | 6 => '6' | 7 => '7' | 8 => '8' | 9 => '9'
  | _ => '*'

/-- Digit value of a decimal digit character, `none` on anything else. -/
def digit? (c : Char) : Option Nat :=
  if c = '0' then some 0 else if c = '1' then some 1 else if c = '2' then some 2
  else if c = '3' then some 3 else if c = '4' then some 4 else if c = '5' then some 5
  else if c = '6' then some 6 else if c = '7' then some 7 else if c = '8' then some 8
  else if c = '9' then some 9 else none

/-- Fixed-width decimal printer: the `n` decimal digits of `x` (most
significant first), as used by `datetime.isoformat` for each component. -/
def padDigits : Nat → Nat → List Char
  | 0, _ => []
  | n + 1, x => digitChar (x / 10 ^ n) :: padDigits n (x % 10 ^ n)

/-- Read exactly `n` decimal digits, extending the accumulator `acc`. -/
def readDigits : Nat → Nat → List Char → Option (Nat × List Char)
  | 0, acc, cs => some (acc, cs)
  | n + 1, acc, c :: cs =>
    match digit? c with
    | some d => readDigits n (acc * 10 + d) cs
    | none => none
  | _ + 1, _, [] => none

/-- A UTC instant as the Python `datetime` fields the app uses. -/
structure DT where
  year : Nat
  month : Nat
  day : Nat
  hour : Nat
  minute : Nat
  second : Nat
  micro : Nat
deriving DecidableEq, Repr

/-- Gregorian leap-year rule (as validated by `datetime`). -/
def isLeap (y : Nat) : Bool :=
  (y % 4 == 0 && y % 100 != 0) || y % 400 == 0

/-- Days in a month (as validated by `datetime`). -/
def daysInMonth (y m : Nat) : Nat :=
  if m == 1 || m == 3 || m == 5 || m == 7 || m == 8 || m == 10 || m == 12 then 31
  else if m == 4 || m == 6 || m == 9 || m == 11 then 30
  else if isLeap y then 29 else 28

/-- The field ranges `datetime` enforces. -/
def DT.valid (t : DT) : Bool :=
  1 ≤ t.year && t.year ≤ 9999 && 1 ≤ t.month && t.month ≤ 12 &&
  1 ≤ t.day && t.day ≤ daysInMonth t.year t.month &&
  t.hour ≤ 23 && t.minute ≤ 59 && t.second ≤ 59 && t.micro ≤ 999999

/-- Characters of `t.isoformat()` for an aware UTC Python datetime. -/
def isoChars (t : DT) : List Char :=
  padDigits 4 t.year ++ ('-' :: (padDigits 2 t.month ++ ('-' :: (padDigits 2 t.day
    ++ ('T' :: (padDigits 2 t.hour ++ (':' :: (padDigits 2 t.minute
    ++ (':' :: (padDigits 2 t.second
    ++ ((if t.micro = 0 then [] else '.' :: padDigits 6 t.micro)
    ++ ['+', '0', '0', ':', '0', '0'])))))))))))

/-- `datetime.isoformat` on an aware UTC datetime. -/
def DT.isoformat (t : DT) : String :=
  String.mk (isoChars t)

/-- Expect one specific character. -/
def expectChar (c : Char) : List Char → Option (List Char)
  | c' :: cs => if c' = c then some cs else none
  | [] => none

/-- Optional fractional-seconds part: a dot followed by six digits. -/
def readMicro : List Char → Option (Nat × List Char)
  | '.' :: cs => readDigits 6 0 cs
  | cs => some (0, cs)

/-- The UTC offset suffix, which must close the string. -/
def expectOffset : List Char → Option Unit
  | ['+', '0', '0', ':', '0', '0'] => some ()
  | _ => none

/-- Character-level parser for the canonical format the app writes with
`DT.isoformat`: date, `T`, time, optional microseconds, a mandatory UTC
offset, with calendar validation. On this format the parsed field values
are exact. -/
def isoCanon (cs : List Char) : Option DT :=
  (readDigits 4 0 cs).bind (fun py =>
  (expectChar '-' py.2).bind (fun r2 =>
  (readDigits 2 0 r2).bind (fun pmo =>
  (expectChar '-' pmo.2).bind (fun r4 =>
  (readDigits 2 0 r4).bind (fun pd =>
  (expectChar 'T' pd.2).bind (fun r6 =>
  (readDigits 2 0 r6).bind (fun ph =>
  (expectChar ':' ph.2).bind (fun r8 =>
  (readDigits 2 0 r8).bind (fun pmi =>
  (expectChar ':' pmi.2).bind (fun r10 =>
  (readDigits 2 0 r10).bind (fun psec =>
  (readMicro psec.2).bind (fun pmic =>
  (expectOffset pmic.2).bind (fun _ =>
    let t : DT := ⟨py.1, pmo.1, pd.1, ph.1, pmi.1, psec.1, pmic.1⟩
    if t.valid then some t else none)))))))))))))

/-- Drop a leading run of decimal digits. -/
def skipDigits : List Char → List Char
  | c :: cs => if (digit? c).isSome then skipDigits cs else c :: cs
  | [] => []

/-- Require at least one decimal digit, then drop the whole digit run. -/
def skipDigits1 : List Char → Option (List Char)
  | c :: cs => if (digit? c).isSome then some (skipDigits cs) else none
  | [] => none

/-- Optional ISO fractional part: a dot or comma followed by one or more
digits (`datetime.fromisoformat` accepts any number of digits and a comma
as the decimal sign); absent is fine. The digits are consumed and
discarded. -/
def parseFrac : List Char → Option (List Char)
  | c :: cs => if c = '.' ∨ c = ',' then skipDigits1 cs else some (c :: cs)
  | [] => some []

/-- The tail of an ISO offset after its sign and two hour digits: optional
minutes and optional seconds (each with or without a `:` separator, the
seconds possibly fractional), which must close the string. -/
def parseOffsetTail : List Char → Bool
  | [] => true
  | cs =>
    match readDigits 2 0 (match cs with | ':' :: t => t | t => t) with
    | none => false
    | some pm =>
      match pm.2 with
      | [] => true
      | cs2 =>
        match readDigits 2 0 (match cs2 with | ':' :: t => t | t => t) with
        | none => false
        | some ps =>
          match parseFrac ps.2 with
          | some [] => true
          | _ => false

/-- An optional ISO offset closing the string: nothing (a naive datetime),
a lowercase `z` (the uppercase one was already rewritten by
`replace("Z", "+00:00")`), or a sign followed by hours and optional
minutes/seconds. -/
def parseOffset : List Char → Bool
  | [] => true
  | ['z'] => true
  | c :: cs =>
    if c = '+' ∨ c = '-' then
      match readDigits 2 0 cs with
      | none => false
      | some p => parseOffsetTail p.2
    else false

/-- An ISO time: two hour digits, then optional minutes and optional
seconds in extended (`:`-separated) or basic form, each component allowing
a fractional part. Returns hour, minute and second (absent components are
zero, as in `datetime.fromisoformat`; fractions are discarded). -/
def parseTime (cs : List Char) : Option (Nat × Nat × Nat × List Char) :=
  match readDigits 2 0 cs with
  | none => none
  | some ph =>
  match parseFrac ph.2 with
  | none => none
  | some r1 =>
  match r1 with
  | ':' :: cs2 =>
    (match readDigits 2 0 cs2 with
     | none => none
     | some pmi =>
     match parseFrac pmi.2 with
     | none => none
     | some r2 =>
     match r2 with
     | ':' :: cs3 =>
       (match readDigits 2 0 cs3 with
        | none => none
        | some psec =>
        match parseFrac psec.2 with
        | none => none
        | some r3 => some (ph.1, pmi.1, psec.1, r3))
     | _ => some (ph.1, pmi.1, 0, r2))
  | _ =>
    match readDigits 2 0 r1 with
    | some pmi =>
      (match parseFrac pmi.2 with
       | none => none
       | some r2 =>
       match readDigits 2 0 r2 with
       | some psec =>
         (match parseFrac psec.2 with
          | none => none
          | some r3 => some (ph.1, pmi.1, psec.1, r3))
       | none => some (ph.1, pmi.1, 0, r2))
    | none => some (ph.1, 0, 0, r1)

/-- The rest of an ISO date after its four year digits, returning month,
day and the remaining characters. Covers the calendar forms
(`-MM-DD` and basic `MMDD`, with exact field values), plus the week
(`-Www[-D]`, `Www[D]`), ordinal (`-DDD`, `DDD`) and truncated forms, for
which month and day are returned as the placeholder 1 (their calendar
conversion is irrelevant here: see `isoExtended`). -/
def parseDateRest : List Char → Option (Nat × Nat × List Char)
  | '-' :: cs =>
    match cs with
    | 'W' :: cs2 =>
      (readDigits 2 0 cs2).bind (fun pw =>
        match pw.2 with
        | '-' :: c3 :: r3 => if (digit? c3).isSome then some (1, 1, r3) else none
        | r => some (1, 1, r))
    | _ =>
      (readDigits 2 0 cs).bind (fun pmo =>
        match pmo.2 with
        | '-' :: cs3 =>
          (readDigits 2 0 cs3).bind (fun pd => some (pmo.1, pd.1, pd.2))
        | c3 :: r3 =>
          if (digit? c3).isSome then some (1, 1, r3)
          else some (pmo.1, 1, c3 :: r3)
        | [] => some (pmo.1, 1, []))
  | 'W' :: cs =>
    (readDigits 2 0 cs).bind (fun pw =>
      match pw.2 with
      | c3 :: r3 => if (digit? c3).isSome then some (1, 1, r3) else some (1, 1, c3 :: r3)
      | [] => some (1, 1, []))
  | cs =>
    match readDigits 2 0 cs with
    | some pmo =>
      (match readDigits 2 0 pmo.2 with
       | some pd => some (pmo.1, pd.1, pd.2)
       | none =>
         match pmo.2 with
         | c3 :: r3 => if (digit? c3).isSome then some (1, 1, r3) else none
         | [] => some (pmo.1, 1, []))
    | none => some (1, 1, cs)

/-- Over-approximating recogniser for everything else
`datetime.fromisoformat` accepts beyond the canonical format: four year
digits, an ISO date rest, then either the end of the string (a date-only
value, midnight) or any single separator character (Python allows any
character in place of `T`) followed by a time and an optional offset.
Acceptance is deliberately a superset of the real parser (it skips range
validation and admits every date/time/offset shape the real parser does),
so failure of this recogniser soundly implies the real
`datetime.fromisoformat` raises. Field values are exact on the common
calendar forms; on week/ordinal dates and fractions they are placeholders,
which no theorem below depends on. -/
def isoExtended (cs : List Char) : Option DT :=
  (readDigits 4 0 cs).bind (fun py =>
  (parseDateRest py.2).bind (fun pdr =>
    match pdr.2.2 with
    | [] => some ⟨py.1, pdr.1, pdr.2.1, 0, 0, 0, 0⟩
    | _ :: timeCs =>
      (parseTime timeCs).bind (fun pt =>
        if parseOffset pt.2.2.2 then
          some ⟨py.1, pdr.1, pdr.2.1, pt.1, pt.2.1, pt.2.2.1, 0⟩
        else none)))

/-- Character-level model of `datetime.fromisoformat`: the canonical
format the app writes is parsed exactly by `isoCanon`; every other string
goes to the over-approximating `isoExtended`, which accepts at least
everything the real parser accepts (date-only, short times, missing or
non-UTC offsets, basic/week/ordinal dates, any separator, fractions).
Hence `fromisoChars cs = none` implies the real parser raises on `cs`,
which is the direction `mongoWF` relies on. -/
def fromisoChars (cs : List Char) : Option DT :=
  match isoCanon cs with
  | some t => some t
  | none => isoExtended cs

/-- `datetime.fromisoformat` on a Lean string. -/
def fromisoformat (s : String) : Option DT :=
  fromisoChars s.data

/-- Python `value.replace("Z", "+00:00")`: every occurrence of `Z` is
replaced by the five-character UTC offset. -/
def replaceZChars : List Char → List Char
  | [] => []
  | c :: cs =>
    if c = 'Z' then '+' :: '0' :: '0' :: ':' :: '0' :: '0' :: replaceZChars cs
    else c :: replaceZChars cs

/-- String form of the `Z`-to-offset replacement done by `parse_from_mongo`. -/
def pyReplaceZ (s : String) : String :=
  String.mk (replaceZChars s.data)

/-! ## Model of Python/Mongo document values

`MVal` is the shape of the dictionaries the handlers pass around: JSON
scalars, datetimes (which JSON cannot carry), arrays and string-keyed
objects. -/

/-- A Python/Mongo document value. -/
inductive MVal where
  | null : MVal
  | bool : Bool → MVal
  | num : Rat → MVal
  | str : String → MVal
  | dt : DT → MVal
  | arr : List MVal → MVal
  | obj : List (String × MVal) → MVal

/-- The three timestamp-bearing keys `parse_from_mongo` recognises. -/
def tsKeys : List String :=
  ["created_at", "updated_at", "due_date"]

mutual

/-- Entry-wise body of the `prepare_for_mongo` dict loop. -/
def prepareKVs : List (String × MVal) → List (String × MVal)
  | [] => []
  | (k, v) :: rest => (k, prepareVal v) :: prepareKVs rest

/-- What `prepare_for_mongo` does to one dict value. -/
def prepareVal : MVal → MVal
  | .dt t => .str t.isoformat
  | .obj kvs => .obj (prepareKVs kvs)
  | .arr items => .arr (prepareArr items)
  | v => v

/-- The list comprehension in `prepare_for_mongo`: dict elements are
recursed into, all other elements pass through untouched. -/
def prepareArr : List MVal → List MVal
  | [] => []
  | .obj kvs :: rest => .obj (prepareKVs kvs) :: prepareArr rest
  | v :: rest => v :: prepareArr rest

end

mutual

/-- Entry-wise body of the `parse_from_mongo` dict loop. -/
def parseKVs : List (String × MVal) → List (String × MVal)
  | [] => []
  | (k, v) :: rest => (k, parseVal k v) :: parseKVs rest

/-- What `parse_from_mongo` does to one dict value under key `k`. -/
def parseVal (k : String) : MVal → MVal
  | .str s =>
    if tsKeys.contains k then
      match fromisoformat (pyReplaceZ s) with
      | some t => .dt t
      | none => .str s
    else .str s
  | .obj kvs => .obj (parseKVs kvs)
  | .arr items => .arr (parseArr items)
  | v => v

/-- The list comprehension in `parse_from_mongo`. -/
def parseArr : List MVal → List MVal
  | [] => []
  | .obj kvs :: rest => .obj (parseKVs kvs) :: parseArr rest
  | v :: rest => v :: parseArr rest

end

mutual

/-- Entry-wise well-formedness of a dict. -/
def mongoWFKVs : List (String × MVal) → Bool
  | [] => true
  | (k, v) :: rest => mongoWFVal k v && mongoWFKVs rest

/-- Well-formedness of one dict value under key `k`. -/
def mongoWFVal (k : String) : MVal → Bool
  | .dt t => tsKeys.contains k && t.valid
  | .str s => !(tsKeys.contains k) || (fromisoformat (pyReplaceZ s)).isNone
  | .obj kvs => mongoWFKVs kvs
  | .arr items => mongoWFArr items
  | _ => true

/-- Well-formedness of the elements of a list value: only dict elements
are recursed into by the codec, so only they carry conditions. -/
def mongoWFArr : List MVal → Bool
  | [] => true
  | .obj kvs :: rest => mongoWFKVs kvs && mongoWFArr rest
  | _ :: rest => mongoWFArr rest

end

/-! ## Entities (the pydantic models of server.py) -/

/-- One `members` entry of a workspace or board. -/
structure Member where
  user_id : String
  role : String
deriving DecidableEq, Repr

/-- `Board` (server.py:139). -/
structure Board where
  id : String
  title : String
  workspace_id : Option String
  visibility : String
  owner_id : String
  members : List Member
  created_at : DT
  updated_at : DT
deriving DecidableEq, Repr

/-- `BoardList` (server.py:154), a column of a board. -/
structure BoardList where
  id : String
  title : String
  board_id : String
  position : Rat
  created_at : DT
  updated_at : DT
deriving DecidableEq, Repr

/-- `Card` (server.py:166). -/
structure Card where
  id : String
  title : String
  description : Option String
  list_id : String
  position : Rat
  labels : List String
  assignees : List String
  due_date : Option DT
  created_at : DT
  updated_at : DT
deriving DecidableEq, Repr

/-- `Comment` (server.py:195). -/
structure Comment where
  id : String
  text : String
  card_id : String
  author_id : String
  created_at : DT
  updated_at : DT
deriving DecidableEq, Repr

/-- `ActivityType` (server.py:90). -/
inductive ActivityType where
  | card_created | card_moved | card_updated | card_deleted
  | comment_added
  | list_created | list_updated | list_deleted
  | member_added | member_removed
deriving DecidableEq, Repr

/-- Wire value of an `ActivityType` (the str-enum value). -/
def ActivityType.toStr : ActivityType → String
  | .card_created => "card_created"
  | .card_moved => "card_moved"
  | .card_updated => "card_updated"
  | .card_deleted => "card_deleted"
  | .comment_added => "comment_added"
  | .list_created => "list_created"
  | .list_updated => "list_updated"
  | .list_deleted => "list_deleted"
  | .member_added => "member_added"
  | .member_removed => "member_removed"

/-- `ActivityLog` (server.py:206); `details` is a free-form dict. -/
structure ActivityLog where
  id : String
  board_id : String
  user_id : String
  activity_type : ActivityType
  details : MVal
  created_at : DT

/-- `CardCreate` (server.py:178). -/
structure CardCreate where
  title : String
  description : Option String
  position : Option Rat
  labels : List String
  assignees : List String
  due_date : Option DT
deriving DecidableEq, Repr

/-- `CardUpdate` (server.py:186): the value of `card_data.dict()` — every
field is optional and defaults to `None`, so after pydantic parsing an
omitted field and a field supplied as JSON `null` are both `none`. -/
structure CardUpdate where
  title : Option String
  description : Option String
  list_id : Option String
  position : Option Rat
  labels : Option (List String)
  assignees : Option (List String)
  due_date : Option DT
deriving DecidableEq, Repr

/-- `ListCreate` (server.py:162). -/
structure ListCreate where
  title : String
  position : Option Rat
deriving DecidableEq, Repr

/-- `CommentCreate` (server.py:203). -/
structure CommentCreate where
  text : String
deriving DecidableEq, Repr

/-- A wire-level card-update request body: for each field, `none` means the
key is absent from the JSON body, `some none` means the key is present with
value `null`, and `some (some v)` means the key is present with value `v`. -/
structure CardUpdateRequest where
  title : Option (Option String)
  description : Option (Option String)
  list_id : Option (Option String)
  position : Option (Option Rat)
  labels : Option (Option (List String))
  assignees : Option (Option (List String))
  due_date : Option (Option DT)
deriving DecidableEq, Repr

/-- Pydantic validation of a `CardUpdate` body: an absent key takes the
declared default `None`, and a key present with `null` also yields `None`
(`Optional` accepts it), so the two collapse to the same model value. -/
def parseCardUpdate (r : CardUpdateRequest) : CardUpdate :=
  { title := r.title.join
    description := r.description.join
    list_id := r.list_id.join
    position := r.position.join
    labels := r.labels.join
    assignees := r.assignees.join
    due_date := r.due_date.join }

/-! ## Application state and the WebSocket connection manager -/

/-- A WebSocket connection handle (Python object identity). -/
abbrev Conn := Nat

/-- The whole mutable state the handlers touch: the Mongo collections (in
insertion order, as `find` without a sort returns them) and the connection
manager's `active_connections` dict (board id to connection list). -/
structure AppState where
  boards : List Board
  lists : List BoardList
  cards : List Card
  comments : List Comment
  activity_logs : List ActivityLog
  active_connections : List (String × List Conn)

mutual

/-- Whether `json.dumps` succeeds on a value: it raises `TypeError` exactly
when a datetime (a non-JSON-serializable object) occurs anywhere in the
value. -/
def jsonOk : MVal → Bool
  | .dt _ => false
  | .arr items => jsonOkArr items
  | .obj kvs => jsonOkKVs kvs
  | _ => true

/-- `json.dumps` success on the elements of an array. -/
def jsonOkArr : List MVal → Bool
  | [] => true
  | v :: rest => jsonOk v && jsonOkArr rest

/-- `json.dumps` success on the entries of an object. -/
def jsonOkKVs : List (String × MVal) → Bool
  | [] => true
  | (_, v) :: rest => jsonOk v && jsonOkKVs rest

end

/-- The loop body of `ConnectionManager.broadcast_to_board`
(server.py:62-70), faithfully modelling CPython list iteration: the `for`
loop walks the live list by an internal index that advances every step,
the `try` around `json.dumps` + `send_text` fails when the message is not
JSON-serializable or the connection's transport fails, and the bare
`except` then calls `list.remove`, which deletes the first occurrence of
the current element and shifts the rest left — so the element after a
removed one is never visited.  `fuel` only bounds the recursion; the index
grows every step and the list never grows, so `fuel = conns.length` always
suffices.  Returns the final list and the connections that were actually
sent the message, in visit order. -/
def broadcastLoop (msgOk : Bool) (netFails : Conn → Bool)
    (excl : Option Conn) : Nat → List Conn → Nat → List Conn × List Conn
  | 0, conns, _ => (conns, [])
  | fuel + 1, conns, i =>
    if h : i < conns.length then
      let c := conns.get ⟨i, h⟩
      if excl = some c then
        broadcastLoop msgOk netFails excl fuel conns (i + 1)
      else if msgOk && !netFails c then
        let r := broadcastLoop msgOk netFails excl fuel conns (i + 1)
        (r.1, c :: r.2)
      else
        broadcastLoop msgOk netFails excl fuel (conns.erase c) (i + 1)
    else (conns, [])

/-- `ConnectionManager.broadcast_to_board` (server.py:62): does nothing if
the board has no registry entry; otherwise runs the send loop over the
board's connection list and stores the surviving list back.  `netFails`
models which connections' transports fail on send.  Returns the updated
registry and the connections that received the message. -/
def broadcast_to_board (message : MVal) (board_id : String)
    (excl : Option Conn) (netFails : Conn → Bool)
    (ac : List (String × List Conn)) :
    List (String × List Conn) × List Conn :=
  match ac.find? (fun p => p.1 == board_id) with
  | none => (ac, [])
  | some p =>
    let r := broadcastLoop (jsonOk message) netFails excl p.2.length p.2 0
    (ac.map (fun q => if q.1 == board_id then (q.1, r.1) else q), r.2)

/-- `activity.dict()`: the pydantic dict of an `ActivityLog`, with the
`created_at` field still a raw datetime object. -/
def activityDict (a : ActivityLog) : MVal :=
  .obj [("id", .str a.id), ("board_id", .str a.board_id),
        ("user_id", .str a.user_id),
        ("activity_type", .str a.activity_type.toStr),
        ("details", a.details), ("created_at", .dt a.created_at)]

/-- The notification envelope built in `log_activity` (server.py:290). -/
def activityEnvelope (a : ActivityLog) : MVal :=
  .obj [("type", .str "activity"), ("activity", activityDict a)]

/-- `log_activity` (server.py:277): construct the `ActivityLog`, insert it
into `activity_logs`, then broadcast the envelope to the board's
subscribers.  Returns the new state and the connections that received the
envelope. -/
def log_activity (board_id user_id : String) (ty : ActivityType)
    (details : MVal) (actId : String) (now : DT) (netFails : Conn → Bool)
    (s : AppState) : AppState × List Conn :=
  let a : ActivityLog :=
    ⟨actId, board_id, user_id, ty, details, now⟩
  let s1 := { s with activity_logs := s.activity_logs ++ [a] }
  let r := broadcast_to_board (activityEnvelope a) board_id none netFails
    s1.active_connections
  ({ s1 with active_connections := r.1 }, r.2)

/-! ## Endpoint handlers

Each handler takes the current state plus the request data; the fresh
uuid4 ids and the current clock reading the handler would draw are passed
in explicitly.  A handler that can raise returns `Except Err` paired with
the state it leaves behind (an error raised before any write leaves the
original state). -/

/-- Outcome of a raised `HTTPException` (a 404 with its detail string) or
of an uncaught Python exception (HTTP 500). -/
inductive Err where
  | notFound : String → Err
  | internal : Err
deriving DecidableEq, Repr

/-- The board lookup every board-scoped handler performs:
`db.boards.find_one({"id": board_id, "members.user_id": user_id})` — one
query that answers `None` both when no board has this id and when the
board exists but the user is not in its member set. -/
def findBoardForUser (s : AppState) (board_id user_id : String) : Option Board :=
  s.boards.find? (fun b =>
    b.id == board_id && b.members.any (fun m => m.user_id == user_id))

/-- Maximum of a list of positions: the position of the document returned
by `find_one(..., sort=[("position", -1)])`, `none` when the sibling set
is empty. -/
def listMax : List Rat → Option Rat
  | [] => none
  | x :: xs => some (match listMax xs with
    | none => x
    | some m => if x ≤ m then m else x)

/-- Lexicographic comparison of two datetime values (the order Mongo sorts
the stored ISO strings in, since the canonical format is
order-preserving). -/
def DTle (a b : DT) : Bool :=
  if a.year < b.year then true else if b.year < a.year then false
  else if a.month < b.month then true else if b.month < a.month then false
  else if a.day < b.day then true else if b.day < a.day then false
  else if a.hour < b.hour then true else if b.hour < a.hour then false
  else if a.minute < b.minute then true else if b.minute < a.minute then false
  else if a.second < b.second then true else if b.second < a.second then false
  else a.micro ≤ b.micro

/-- `get_board` (server.py:395). -/
def get_board (s : AppState) (board_id user_id : String) : Except Err Board :=
  match findBoardForUser s board_id user_id with
  | none => .error (.notFound "Board not found")
  | some b => .ok b

/-- `get_lists` (server.py:433): the board's lists sorted ascending by
position. -/
def get_lists (s : AppState) (board_id user_id : String) :
    Except Err (List BoardList) :=
  match findBoardForUser s board_id user_id with
  | none => .error (.notFound "Board not found")
  | some _ =>
    .ok (List.insertionSort (fun a b => a.position ≤ b.position)
      (s.lists.filter (fun l => l.board_id == board_id)))

/-- `get_cards` (server.py:485): all cards of the board's lists sorted
ascending by position. -/
def get_cards (s : AppState) (board_id user_id : String) :
    Except Err (List Card) :=
  match findBoardForUser s board_id user_id with
  | none => .error (.notFound "Board not found")
  | some _ =>
    let listIds := (s.lists.filter (fun l => l.board_id == board_id)).map
      (fun l => l.id)
    .ok (List.insertionSort (fun a b => a.position ≤ b.position)
      (s.cards.filter (fun c => listIds.contains c.list_id)))

/-- `get_activities` (server.py:595): the board's activity entries sorted
descending by creation time, capped at `limit` (default 20). -/
def get_activities (s : AppState) (board_id user_id : String)
    (limit : Nat := 20) : Except Err (List ActivityLog) :=
  match findBoardForUser s board_id user_id with
  | none => .error (.notFound "Board not found")
  | some _ =>
    .ok ((List.insertionSort (fun a b => DTle b.created_at a.created_at = true)
      (s.activity_logs.filter (fun a => a.board_id == board_id))).take limit)

/-- `create_list` (server.py:404): guard board access, resolve the position
(the caller's value verbatim when supplied, otherwise max sibling position
plus 1000, or 1000 with no siblings), insert, log `list_created`. -/
def create_list (s : AppState) (board_id : String) (list_data : ListCreate)
    (user_id newListId actId : String) (now : DT) (netFails : Conn → Bool) :
    Except Err BoardList × AppState :=
  match findBoardForUser s board_id user_id with
  | none => (.error (.notFound "Board not found"), s)
  | some _ =>
    let pos :=
      match list_data.position with
      | some p => p
      | none =>
        match listMax ((s.lists.filter (fun l => l.board_id == board_id)).map
            (fun l => l.position)) with
        | some m => m + 1000
        | none => 1000
    let nl : BoardList := ⟨newListId, list_data.title, board_id, pos, now, now⟩
    let s1 := { s with lists := s.lists ++ [nl] }
    let details : MVal :=
      .obj [("list_id", .str nl.id), ("list_title", .str nl.title)]
    (.ok nl,
      (log_activity board_id user_id .list_created details actId now netFails s1).1)

/-- `create_card` (server.py:444): the list must exist (else `List not
found`), its board must pass the access guard, then the position is
resolved exactly as for lists but among the cards of this list, the card
is inserted and `card_created` logged. -/
def create_card (s : AppState) (list_id : String) (card_data : CardCreate)
    (user_id newCardId actId : String) (now : DT) (netFails : Conn → Bool) :
    Except Err Card × AppState :=
  match s.lists.find? (fun l => l.id == list_id) with
  | none => (.error (.notFound "List not found"), s)
  | some l =>
    match findBoardForUser s l.board_id user_id with
    | none => (.error (.notFound "Board not found"), s)
    | some _ =>
      let pos :=
        match card_data.position with
        | some p => p
        | none =>
          match listMax ((s.cards.filter (fun c => c.list_id == list_id)).map
              (fun c => c.position)) with
          | some m => m + 1000
          | none => 1000
      let c : Card := ⟨newCardId, card_data.title, card_data.description,
        list_id, pos, card_data.labels, card_data.assignees,
        card_data.due_date, now, now⟩
      let s1 := { s with cards := s.cards ++ [c] }
      let details : MVal := .obj [("card_id", .str c.id),
        ("card_title", .str c.title), ("list_id", .str list_id)]
      (.ok c,
        (log_activity l.board_id user_id .card_created details actId now netFails s1).1)

/-- The `$set` patch built in `update_card` (server.py:517): only the
fields whose `CardUpdate` value is not `None` are written, plus a
refreshed `updated_at`. -/
def applyUpdate (cu : CardUpdate) (now : DT) (c : Card) : Card :=
  { c with
    title := cu.title.getD c.title
    description := match cu.description with | some d => some d | none => c.description
    list_id := cu.list_id.getD c.list_id
    position := cu.position.getD c.position
    labels := cu.labels.getD c.labels
    assignees := cu.assignees.getD c.assignees
    due_date := match cu.due_date with | some d => some d | none => c.due_date
    updated_at := now }

/-- Helper for building a dict with a key present only when the value is. -/
def optEntry (k : String) : Option MVal → List (String × MVal)
  | some v => [(k, v)]
  | none => []

/-- The `changes` payload of a card-update activity: the non-`None` update
fields after `prepare_for_mongo` (datetimes already ISO strings), plus the
refreshed `updated_at`. -/
def changesMVal (cu : CardUpdate) (now : DT) : MVal :=
  .obj (optEntry "title" (cu.title.map .str) ++
    optEntry "description" (cu.description.map .str) ++
    optEntry "list_id" (cu.list_id.map .str) ++
    optEntry "position" (cu.position.map .num) ++
    optEntry "labels" (cu.labels.map (fun ls => .arr (ls.map .str))) ++
    optEntry "assignees" (cu.assignees.map (fun ls => .arr (ls.map .str))) ++
    optEntry "due_date" (cu.due_date.map (fun t => .str t.isoformat)) ++
    [("updated_at", .str now.isoformat)])

/-- `update_card` (server.py:500): find the card (else `Card not found`),
dereference the card's current list (a missing list makes the Python code
subscript `None`, an uncaught `TypeError`, modelled as `internal`), guard
access on the current list's board, apply the partial patch, re-read the
card, and log `card_moved` when `list_id` was among the patch fields,
`card_updated` otherwise. -/
def update_card (s : AppState) (card_id : String) (cu : CardUpdate)
    (user_id actId : String) (now : DT) (netFails : Conn → Bool) :
    Except Err Card × AppState :=
  match s.cards.find? (fun c => c.id == card_id) with
  | none => (.error (.notFound "Card not found"), s)
  | some c =>
    match s.lists.find? (fun l => l.id == c.list_id) with
    | none => (.error .internal, s)
    | some l =>
      match findBoardForUser s l.board_id user_id with
      | none => (.error (.notFound "Board not found"), s)
      | some _ =>
        let cards1 := s.cards.map
          (fun x => if x.id == card_id then applyUpdate cu now x else x)
        let s1 := { s with cards := cards1 }
        match cards1.find? (fun x => x.id == card_id) with
        | none => (.error .internal, s1)
        | some c2 =>
          let ty := if cu.list_id.isSome then ActivityType.card_moved
            else ActivityType.card_updated
          let details : MVal := .obj [("card_id", .str card_id),
            ("card_title", .str c2.title), ("changes", changesMVal cu now)]
          (.ok c2,
            (log_activity l.board_id user_id ty details actId now netFails s1).1)

/-- `create_comment` (server.py:541): find the card (else `Card not
found`), dereference its list, guard access on that list's board, store
the comment with its full text, and log `comment_added` whose detail
payload truncates the text to its first 100 characters plus `...` when
strictly longer than 100. -/
def create_comment (s : AppState) (card_id : String) (cd : CommentCreate)
    (user_id commentId actId : String) (now : DT) (netFails : Conn → Bool) :
    Except Err Comment × AppState :=
  match s.cards.find? (fun c => c.id == card_id) with
  | none => (.error (.notFound "Card not found"), s)
  | some c =>
    match s.lists.find? (fun l => l.id == c.list_id) with
    | none => (.error .internal, s)
    | some l =>
      match findBoardForUser s l.board_id user_id with
      | none => (.error (.notFound "Board not found"), s)
      | some _ =>
        let cm : Comment := ⟨commentId, cd.text, card_id, user_id, now, now⟩
        let s1 := { s with comments := s.comments ++ [cm] }
        let details : MVal := .obj [("card_id", .str card_id),
          ("comment_id", .str cm.id),
          ("comment_text", .str (if cm.text.length > 100
            then cm.text.take 100 ++ "..." else cm.text))]
        (.ok cm,
          (log_activity l.board_id user_id .comment_added details actId now netFails s1).1)

/-- `get_comments` (server.py:575): same card-then-list-then-board guard
chain as `create_comment`, then the card's comments ascending by creation
time. -/
def get_comments (s : AppState) (card_id user_id : String) :
    Except Err (List Comment) :=
  match s.cards.find? (fun c => c.id == card_id) with
  | none => .error (.notFound "Card not found")
  | some c =>
    match s.lists.find? (fun l => l.id == c.list_id) with
    | none => .error .internal
    | some l =>
      match findBoardForUser s l.board_id user_id with
      | none => .error (.notFound "Board not found")
      | some _ =>
        .ok (List.insertionSort (fun a b => DTle a.created_at b.created_at = true)
          (s.comments.filter (fun cm => cm.card_id == card_id)))

/-- Python `s.split(",")`: split on every comma; empty input yields one
empty chunk, a trailing comma yields a trailing empty chunk. -/
def splitCommaAux : List Char → List Char → List String
  | [], acc => [String.mk acc.reverse]
  | c :: cs, acc =>
    if c = ',' then String.mk acc.reverse :: splitCommaAux cs []
    else splitCommaAux cs (c :: acc)

/-- Python `s.split(",")` on a Lean string. -/
def pySplitComma (s : String) : List String :=
  splitCommaAux s.data []

/-- Falsiness test FastAPI query strings go through (`if q:`): absent or
empty means no filter. -/
def truthy : Option String → Option String
  | some s => if s == "" then none else some s
  | none => none

/-- Substring test on character lists. -/
def isSubChars (needle hay : List Char) : Bool :=
  hay.tails.any (fun t => needle.isPrefixOf t)

/-- Case-insensitive substring test: the persistence collaborator's
case-insensitive substring filter applied to pattern `pat` and field
value `hay`. -/
def ciContains (hay pat : String) : Bool :=
  isSubChars pat.toLower.data hay.toLower.data

/-- `search_cards` (server.py:606): guard board access, then filter the
cards to those of the board's lists that satisfy every supplied filter,
sorted ascending by position. -/
def search_cards (s : AppState) (board_id user_id : String)
    (q labels assignees : Option String) : Except Err (List Card) :=
  match findBoardForUser s board_id user_id with
  | none => .error (.notFound "Board not found")
  | some _ =>
    let listIds := (s.lists.filter (fun l => l.board_id == board_id)).map
      (fun l => l.id)
    let pred := fun (c : Card) =>
      listIds.contains c.list_id &&
      (match truthy q with
       | some qs => ciContains c.title qs ||
           (match c.description with
            | some d => ciContains d qs
            | none => false)
       | none => true) &&
      (match truthy labels with
       | some ls => c.labels.any (fun x => (pySplitComma ls).contains x)
       | none => true) &&
      (match truthy assignees with
       | some asg => c.assignees.any (fun x => (pySplitComma asg).contains x)
       | none => true)
    .ok (List.insertionSort (fun a b => a.position ≤ b.position)
      (s.cards.filter pred))

/-- Appending `n` lists in sequence through `create_list`, none with an
explicit position (the scenario of the spacing property). -/
def appendLists (board_id user_id title : String) (mkId mkActId : Nat → String)
    (now : DT) (netFails : Conn → Bool) : Nat → AppState → AppState
  | 0, s => s
  | n + 1, s =>
    (create_list (appendLists board_id user_id title mkId mkActId now netFails n s)
      board_id ⟨title, none⟩ user_id (mkId n) (mkActId n) now netFails).2

/-- Position of the `k`-th appended sibling (0-based): the closed form
the append-only engine produces. -/
def rowPos (k : Nat) : Rat := ((k : Rat) + 1) * 1000

/-- Decidable equality of handler outcomes. -/
instance exceptDecEq {ε α : Type} [DecidableEq ε] [DecidableEq α] :
    DecidableEq (Except ε α) := fun x y =>
  match x, y with
  | .ok a, .ok b =>
    if h : a = b then isTrue (by rw [h]) else isFalse (by simp [h])
  | .error a, .error b =>
    if h : a = b then isTrue (by rw [h]) else isFalse (by simp [h])
  | .ok _, .error _ => isFalse (by simp)
  | .error _, .ok _ => isFalse (by simp)

/-- Lookup of one key of a detail dict. -/
def detailGet (m : MVal) (k : String) : Option MVal :=
  match m with
  | .obj kvs => (kvs.find? (fun p => p.1 == k)).map (fun p => p.2)
  | _ => none

/-- Sorting by position is total. -/
instance : IsTotal Card (fun a b => a.position ≤ b.position) :=
  ⟨fun a b => le_total a.position b.position⟩

/-- Sorting by position is transitive. -/
instance : IsTrans Card (fun a b => a.position ≤ b.position) :=
  ⟨fun _ _ _ => le_trans⟩

/-! ## Concrete fixtures used by the witnesses and counterexamples -/

/-- A fixed clock reading. -/
def dt0 : DT := ⟨2024, 1, 15, 12, 0, 0, 0⟩

/-- A later clock reading. -/
def dt1 : DT := ⟨2024, 1, 15, 12, 30, 0, 500⟩

/-- All transports healthy. -/
def noFail : Conn → Bool := fun _ => false

/-- A board owned by `u1` whose only member is `u1`. -/
def board1 : Board :=
  ⟨"b1", "Dev Board", none, "private", "u1", [⟨"u1", "owner"⟩], dt0, dt0⟩

/-- A second board whose only member is `u3`. -/
def board2 : Board :=
  ⟨"b2", "Other Board", none, "private", "u3", [⟨"u3", "owner"⟩], dt0, dt0⟩

/-- A list of `b1`. -/
def list1 : BoardList := ⟨"l1", "Todo", "b1", 1000, dt0, dt0⟩

/-- A second list of `b1`. -/
def list2 : BoardList := ⟨"l2", "Doing", "b1", 2000, dt0, dt0⟩

/-- A list of `b2`. -/
def list3 : BoardList := ⟨"l3", "Elsewhere", "b2", 1000, dt0, dt0⟩

/-- A card on `l1` with a description and an `urgent` label. -/
def card1 : Card :=
  ⟨"c1", "Fix login bug", some "urgent fix for auth", "l1", 1000,
    ["urgent"], ["u1"], none, dt0, dt0⟩

/-- A card on `l1` without a description. -/
def card2 : Card :=
  ⟨"c2", "Write docs", none, "l1", 2000, ["docs"], ["u2"], none, dt0, dt0⟩

/-- A card on the other board's list, also labelled `urgent`. -/
def card3 : Card :=
  ⟨"c3", "Other board card", some "urgent too", "l3", 500,
    ["urgent"], ["u3"], none, dt0, dt0⟩

/-- The standard two-board fixture state. -/
def state0 : AppState :=
  ⟨[board1, board2], [list1, list2, list3], [card1, card2, card3],
    [], [], [("b1", [7])]⟩

/-- A state with one board and no lists (for the append scenario). -/
def stateC1 : AppState := ⟨[board1], [], [], [], [], []⟩

/-- A state with two live subscribers of `b1`. -/
def state5 : AppState := ⟨[board1], [list1], [], [], [], [("b1", [1, 2])]⟩

/-- A card-update request body whose `description` key is present with the
JSON value `null` and every other key absent. -/
def reqNullDescription : CardUpdateRequest :=
  ⟨none, some none, none, none, none, none, none⟩

/-- A card-update request body with no keys at all. -/
def reqOmitDescription : CardUpdateRequest :=
  ⟨none, none, none, none, none, none, none⟩

/-- When no board row passes the combined id-and-membership filter, the
guard query answers `none`.  The hypothesis covers exactly the two
indistinguishable situations: no board with this id at all (vacuously) and
boards with this id whose member set misses the user. -/
theorem findBoardForUser_eq_none (s : AppState) (bid uid : String)
    (h : ∀ b ∈ s.boards, b.id = bid → ∀ m ∈ b.members, m.user_id ≠ uid) :
    findBoardForUser s bid uid = none := by
  rw [findBoardForUser, List.find?_eq_none]
  intro b hb
  simp only [Bool.and_eq_true, List.any_eq_true, beq_iff_eq, not_and]
  rintro rfl ⟨m, hm, rfl⟩
  exact h b hb rfl m hm rfl

/-- Mongo `update_one` then `find_one` on the same id filter: patching the
first match in place and re-reading returns the patched document, provided
the patch preserves the filter. -/
theorem find?_map_ite {α : Type} {p : α → Bool} {f : α → α} {l : List α}
    {c : α} (hf : ∀ x, p x = true → p (f x) = true)
    (h : l.find? p = some c) :
    (l.map (fun x => if p x then f x else x)).find? p = some (f c) := by
  induction l with
  | nil => simp at h
  | cons a l ih =>
    by_cases hp : p a = true
    · rw [List.find?_cons_of_pos _ hp] at h
      simp only [List.map_cons, if_pos hp]
      rw [List.find?_cons_of_pos _ (hf a hp)]
      simp only [Option.some.injEq] at h
      rw [h]
    · rw [List.find?_cons_of_neg _ hp] at h
      simp only [List.map_cons, if_neg hp]
      rw [List.find?_cons_of_neg _ hp]
      exact ih h

/-! ## C2 -/

/-- C2: every board-scoped operation — get board, list lists, list cards,
list activities, search, create list — produces the same uniform
`Board not found` rejection, with no state change, whenever no board row
passes the id-and-membership filter; the hypothesis holds both when the
board id does not exist (vacuously) and when the board exists but the user
is not in its member set, so the two situations are observationally
identical and board existence is not leaked to non-members. -/
theorem C2_board_access_uniform (s : AppState) (bid uid : String)
    (lid aid : String) (ld : ListCreate) (now : DT) (nf : Conn → Bool)
    (q labels assignees : Option String) (limit : Nat)
    (h : ∀ b ∈ s.boards, b.id = bid → ∀ m ∈ b.members, m.user_id ≠ uid) :
    get_board s bid uid = .error (.notFound "Board not found") ∧
    get_lists s bid uid = .error (.notFound "Board not found") ∧
    get_cards s bid uid = .error (.notFound "Board not found") ∧
    get_activities s bid uid limit = .error (.notFound "Board not found") ∧
    search_cards s bid uid q labels assignees =
      .error (.notFound "Board not found") ∧
    create_list s bid ld uid lid aid now nf =
      (.error (.notFound "Board not found"), s) := by
  have hn := findBoardForUser_eq_none s bid uid h
  refine ⟨?_, ?_, ?_, ?_, ?_, ?_⟩ <;>
    simp [get_board, get_lists, get_cards, get_activities, search_cards,
      create_list, hn]

/-- Witness for C2: `u2` is not a member of board `b1` in the fixture
state; every board-scoped operation answers `Board not found` and the
state is untouched. -/
theorem C2_witness :
    (∀ b ∈ state0.boards, b.id = "b1" → ∀ m ∈ b.members, m.user_id ≠ "u2") ∧
    (get_board state0 "b1" "u2" = .error (.notFound "Board not found") ∧
     get_lists state0 "b1" "u2" = .error (.notFound "Board not found") ∧
     get_cards state0 "b1" "u2" = .error (.notFound "Board not found") ∧
     get_activities state0 "b1" "u2" 20 = .error (.notFound "Board not found") ∧
     search_cards state0 "b1" "u2" none none none =
       .error (.notFound "Board not found") ∧
     create_list state0 "b1" ⟨"T", none⟩ "u2" "lx" "ax" dt0 noFail =
       (.error (.notFound "Board not found"), state0)) :=
  ⟨by decide,
   C2_board_access_uniform state0 "b1" "u2" "lx" "ax" ⟨"T", none⟩ dt0 noFail
     none none none 20 (by decide)⟩

/-! ## C9 -/

/-- C9: card-scoped operations answer `Card not found` when the card id
does not exist but `Board not found` when the card exists and only
membership is missing, and `create_card` answers `List not found` exactly
when the list id does not exist — so, unlike board existence, the
existence of cards and lists is observable to any authenticated user, the
two rejections being distinct. -/
theorem C9_entity_existence_observable (s : AppState) (uid : String)
    (cidA cidB lidA lidB : String) (c : Card) (l l' : BoardList)
    (cu : CardUpdate) (cdta : CardCreate) (txt : String)
    (cmid ncid aid : String) (now : DT) (nf : Conn → Bool)
    (hA : s.cards.find? (fun x => x.id == cidA) = none)
    (hB : s.cards.find? (fun x => x.id == cidB) = some c)
    (hBl : s.lists.find? (fun x => x.id == c.list_id) = some l)
    (hBb : findBoardForUser s l.board_id uid = none)
    (hLA : s.lists.find? (fun x => x.id == lidA) = none)
    (hLB : s.lists.find? (fun x => x.id == lidB) = some l')
    (hLBb : findBoardForUser s l'.board_id uid = none) :
    update_card s cidA cu uid aid now nf =
      (.error (.notFound "Card not found"), s) ∧
    create_comment s cidA ⟨txt⟩ uid cmid aid now nf =
      (.error (.notFound "Card not found"), s) ∧
    get_comments s cidA uid = .error (.notFound "Card not found") ∧
    update_card s cidB cu uid aid now nf =
      (.error (.notFound "Board not found"), s) ∧
    create_comment s cidB ⟨txt⟩ uid cmid aid now nf =
      (.error (.notFound "Board not found"), s) ∧
    get_comments s cidB uid = .error (.notFound "Board not found") ∧
    create_card s lidA cdta uid ncid aid now nf =
      (.error (.notFound "List not found"), s) ∧
    create_card s lidB cdta uid ncid aid now nf =
      (.error (.notFound "Board not found"), s) ∧
    Err.notFound "Card not found" ≠ Err.notFound "Board not found" ∧
    Err.notFound "List not found" ≠ Err.notFound "Board not found" := by
  refine ⟨?_, ?_, ?_, ?_, ?_, ?_, ?_, ?_, by decide, by decide⟩ <;>
    simp [update_card, create_comment, get_comments, create_card,
      hA, hB, hBl, hBb, hLA, hLB, hLBb]

/-- Witness for C9: in the fixture state, for user `u2`, card id `nope`
does not exist (`Card not found`) while card `c3` exists on board `b2`
where `u2` is no member (`Board not found`); list id `nolist` does not
exist (`List not found`) while list `l3` exists on `b2`
(`Board not found`). -/
theorem C9_witness :
    (state0.cards.find? (fun x => x.id == "nope") = none ∧
     state0.cards.find? (fun x => x.id == "c3") = some card3 ∧
     state0.lists.find? (fun x => x.id == card3.list_id) = some list3 ∧
     findBoardForUser state0 list3.board_id "u2" = none ∧
     state0.lists.find? (fun x => x.id == "nolist") = none ∧
     state0.lists.find? (fun x => x.id == "l3") = some list3 ∧
     findBoardForUser state0 list3.board_id "u2" = none) ∧
    (update_card state0 "nope" ⟨none, none, none, none, none, none, none⟩
       "u2" "ax" dt1 noFail = (.error (.notFound "Card not found"), state0) ∧
     create_comment state0 "nope" ⟨"hi"⟩ "u2" "cmx" "ax" dt1 noFail =
       (.error (.notFound "Card not found"), state0) ∧
     get_comments state0 "nope" "u2" = .error (.notFound "Card not found") ∧
     update_card state0 "c3" ⟨none, none, none, none, none, none, none⟩
       "u2" "ax" dt1 noFail = (.error (.notFound "Board not found"), state0) ∧
     create_comment state0 "c3" ⟨"hi"⟩ "u2" "cmx" "ax" dt1 noFail =
       (.error (.notFound "Board not found"), state0) ∧
     get_comments state0 "c3" "u2" = .error (.notFound "Board not found") ∧
     create_card state0 "nolist" ⟨"T", none, none, [], [], none⟩
       "u2" "ncx" "ax" dt1 noFail = (.error (.notFound "List not found"), state0) ∧
     create_card state0 "l3" ⟨"T", none, none, [], [], none⟩
       "u2" "ncx" "ax" dt1 noFail = (.error (.notFound "Board not found"), state0) ∧
     Err.notFound "Card not found" ≠ Err.notFound "Board not found" ∧
     Err.notFound "List not found" ≠ Err.notFound "Board not found") :=
  ⟨by decide,
   C9_entity_existence_observable state0 "u2" "nope" "c3" "nolist" "l3"
     card3 list3 list3 ⟨none, none, none, none, none, none, none⟩
     ⟨"T", none, none, [], [], none⟩ "hi" "cmx" "ncx" "ax" dt1 noFail
     (by decide) (by decide) (by decide) (by decide) (by decide) (by decide)
     (by decide)⟩

/-! ## C3 -/

/-- C3: a successful card update logs exactly one activity whose type is
`card_moved` precisely when `list_id` is among the patched (non-`None`)
fields and `card_updated` otherwise, and whose board is the board of the
card's current (pre-patch) list; when the access check on that pre-patch
board fails, the request is rejected before any patch is applied. -/
theorem C3_card_update_activity (s : AppState) (cid uid aid : String)
    (cu : CardUpdate) (now : DT) (nf : Conn → Bool) (c : Card) (l : BoardList)
    (hc : s.cards.find? (fun x => x.id == cid) = some c)
    (hl : s.lists.find? (fun x => x.id == c.list_id) = some l) :
    (∀ b, findBoardForUser s l.board_id uid = some b →
      ∃ s', update_card s cid cu uid aid now nf =
          (.ok (applyUpdate cu now c), s') ∧
        s'.activity_logs = s.activity_logs ++
          [⟨aid, l.board_id, uid,
            if cu.list_id.isSome then .card_moved else .card_updated,
            .obj [("card_id", .str cid),
              ("card_title", .str (applyUpdate cu now c).title),
              ("changes", changesMVal cu now)], now⟩]) ∧
    (findBoardForUser s l.board_id uid = none →
      update_card s cid cu uid aid now nf =
        (.error (.notFound "Board not found"), s)) := by
  constructor
  · intro b hb
    have hre : (s.cards.map (fun x => if x.id == cid then applyUpdate cu now x
        else x)).find? (fun x => x.id == cid) = some (applyUpdate cu now c) :=
      find?_map_ite (fun x hx => hx) hc
    have hU : update_card s cid cu uid aid now nf =
        (.ok (applyUpdate cu now c),
          (log_activity l.board_id uid
            (if cu.list_id.isSome then ActivityType.card_moved
              else ActivityType.card_updated)
            (.obj [("card_id", .str cid),
              ("card_title", .str (applyUpdate cu now c).title),
              ("changes", changesMVal cu now)]) aid now nf
            { s with cards := (List.map
                (fun x => if x.id == cid then applyUpdate cu now x else x)
                s.cards) }).1) := by
      simp only [update_card, hc, hl, hb, hre]
    exact ⟨_, hU, rfl⟩
  · intro hb
    simp only [update_card, hc, hl, hb]

/-- Witness for C3: moving `c1` to list `l2` (supplying `list_id` only)
succeeds and logs a `card_moved` activity on `b1`, the board of the
pre-patch list `l1`. -/
theorem C3_witness :
    (state0.cards.find? (fun x => x.id == "c1") = some card1 ∧
     state0.lists.find? (fun x => x.id == card1.list_id) = some list1 ∧
     findBoardForUser state0 list1.board_id "u1" = some board1) ∧
    (∃ s', update_card state0 "c1" ⟨none, none, some "l2", none, none, none, none⟩
        "u1" "a1" dt1 noFail =
        (.ok (applyUpdate ⟨none, none, some "l2", none, none, none, none⟩ dt1 card1), s') ∧
      s'.activity_logs = state0.activity_logs ++
        [⟨"a1", list1.board_id, "u1", .card_moved,
          .obj [("card_id", .str "c1"),
            ("card_title", .str (applyUpdate ⟨none, none, some "l2", none, none, none, none⟩ dt1 card1).title),
            ("changes", changesMVal ⟨none, none, some "l2", none, none, none, none⟩ dt1)], dt1⟩]) :=
  ⟨⟨by decide, by decide, by decide⟩,
   (C3_card_update_activity state0 "c1" "u1" "a1"
      ⟨none, none, some "l2", none, none, none, none⟩ dt1 noFail card1 list1
      (by decide) (by decide)).1 board1 (by decide)⟩

/-! ## C4 -/

/-- C4 counterexample: the claim says a field supplied as JSON `null` is
distinguished from an omitted field, so that a field can be explicitly
cleared.  In the code, `CardUpdate` gives every field the default `None`
and the patch keeps only non-`None` values, so the request that carries
`description: null` parses to the very same `CardUpdate` as the request
that omits `description`, and the update leaves the old description in
place instead of clearing it. -/
theorem C4_counterexample :
    parseCardUpdate reqNullDescription = parseCardUpdate reqOmitDescription ∧
    (update_card state0 "c1" (parseCardUpdate reqNullDescription) "u1" "a9"
      dt1 noFail).1 =
      .ok (⟨"c1", "Fix login bug", some "urgent fix for auth", "l1", 1000,
        ["urgent"], ["u1"], none, dt0, dt1⟩ : Card) ∧
    (⟨"c1", "Fix login bug", some "urgent fix for auth", "l1", 1000,
      ["urgent"], ["u1"], none, dt0, dt1⟩ : Card).description ≠ none := by
  refine ⟨by decide, by decide, by decide⟩

/-- C4 amended: a card update writes exactly the fields supplied with a
non-null value, plus a refreshed `updated_at`; every other field —
whether omitted or supplied as `null`, which pydantic parsing collapses
to the same model value — retains its prior value, so a field cannot be
explicitly cleared through this endpoint; cards other than the target are
untouched. -/
theorem C4_partial_patch (s : AppState) (cid uid aid : String)
    (cu : CardUpdate) (now : DT) (nf : Conn → Bool) (c : Card)
    (l : BoardList) (b : Board)
    (hc : s.cards.find? (fun x => x.id == cid) = some c)
    (hl : s.lists.find? (fun x => x.id == c.list_id) = some l)
    (hb : findBoardForUser s l.board_id uid = some b) :
    (∃ s', update_card s cid cu uid aid now nf =
        (.ok (⟨c.id, cu.title.getD c.title,
          (match cu.description with | some d => some d | none => c.description),
          cu.list_id.getD c.list_id, cu.position.getD c.position,
          cu.labels.getD c.labels, cu.assignees.getD c.assignees,
          (match cu.due_date with | some d => some d | none => c.due_date),
          c.created_at, now⟩ : Card), s') ∧
      (∀ x ∈ s.cards, x.id ≠ cid → x ∈ s'.cards)) ∧
    (∀ r : CardUpdateRequest,
      parseCardUpdate { r with description := some none } =
        parseCardUpdate { r with description := none } ∧
      parseCardUpdate { r with due_date := some none } =
        parseCardUpdate { r with due_date := none }) := by
  constructor
  · have hre : (s.cards.map (fun x => if x.id == cid then applyUpdate cu now x
        else x)).find? (fun x => x.id == cid) = some (applyUpdate cu now c) :=
      find?_map_ite (fun x hx => hx) hc
    have hU : update_card s cid cu uid aid now nf =
        (.ok (applyUpdate cu now c),
          (log_activity l.board_id uid
            (if cu.list_id.isSome then ActivityType.card_moved
              else ActivityType.card_updated)
            (.obj [("card_id", .str cid),
              ("card_title", .str (applyUpdate cu now c).title),
              ("changes", changesMVal cu now)]) aid now nf
            { s with cards := (List.map
                (fun x => if x.id == cid then applyUpdate cu now x else x)
                s.cards) }).1) := by
      simp only [update_card, hc, hl, hb, hre]
    refine ⟨_, hU.trans rfl, ?_⟩
    intro x hx hne
    show x ∈ s.cards.map (fun y => if y.id == cid then applyUpdate cu now y else y)
    have hfix : (fun y : Card => if y.id == cid then applyUpdate cu now y else y) x
        = x := by simp [hne]
    have h2 := List.mem_map_of_mem
      (fun y : Card => if y.id == cid then applyUpdate cu now y else y) hx
    rw [hfix] at h2
    exact h2
  · intro r
    exact ⟨rfl, rfl⟩

/-- Witness for C4 amended: updating only the title of `c1` rewrites the
title and `updated_at` and leaves every other field — including the
description, which the request also carried as `null` — at its prior
value. -/
theorem C4_witness :
    (state0.cards.find? (fun x => x.id == "c1") = some card1 ∧
     state0.lists.find? (fun x => x.id == card1.list_id) = some list1 ∧
     findBoardForUser state0 list1.board_id "u1" = some board1) ∧
    ((∃ s', update_card state0 "c1" ⟨some "Renamed", none, none, none, none, none, none⟩
        "u1" "a2" dt1 noFail =
        (.ok (⟨card1.id, "Renamed", card1.description, card1.list_id,
          card1.position, card1.labels, card1.assignees, card1.due_date,
          card1.created_at, dt1⟩ : Card), s') ∧
      (∀ x ∈ state0.cards, x.id ≠ "c1" → x ∈ s'.cards)) ∧
    (∀ r : CardUpdateRequest,
      parseCardUpdate { r with description := some none } =
        parseCardUpdate { r with description := none } ∧
      parseCardUpdate { r with due_date := some none } =
        parseCardUpdate { r with due_date := none })) :=
  ⟨⟨by decide, by decide, by decide⟩,
   C4_partial_patch state0 "c1" "u1" "a2"
     ⟨some "Renamed", none, none, none, none, none, none⟩ dt1 noFail
     card1 list1 board1 (by decide) (by decide) (by decide)⟩

/-! ## C6 -/

/-- C6: adding a comment stores the full text on the `Comment` entity,
while the `comment_added` activity's `comment_text` detail is the first
100 characters followed by `...` when the text is strictly longer than
100 characters and the unmodified text when it is 100 characters or
fewer. -/
theorem C6_comment_truncation (s : AppState) (cid uid cmid aid : String)
    (txt : String) (now : DT) (nf : Conn → Bool) (c : Card) (l : BoardList)
    (b : Board)
    (hc : s.cards.find? (fun x => x.id == cid) = some c)
    (hl : s.lists.find? (fun x => x.id == c.list_id) = some l)
    (hb : findBoardForUser s l.board_id uid = some b) :
    ∃ s', create_comment s cid ⟨txt⟩ uid cmid aid now nf =
        (.ok (⟨cmid, txt, cid, uid, now, now⟩ : Comment), s') ∧
      s'.comments = s.comments ++ [⟨cmid, txt, cid, uid, now, now⟩] ∧
      ∃ act, s'.activity_logs = s.activity_logs ++ [act] ∧
        act.activity_type = .comment_added ∧ act.board_id = l.board_id ∧
        (txt.length ≤ 100 →
          detailGet act.details "comment_text" = some (.str txt)) ∧
        (txt.length > 100 →
          detailGet act.details "comment_text" =
            some (.str (txt.take 100 ++ "..."))) := by
  have hU : create_comment s cid ⟨txt⟩ uid cmid aid now nf =
      (.ok (⟨cmid, txt, cid, uid, now, now⟩ : Comment),
        (log_activity l.board_id uid .comment_added
          (.obj [("card_id", .str cid), ("comment_id", .str cmid),
            ("comment_text", .str (if txt.length > 100
              then txt.take 100 ++ "..." else txt))]) aid now nf
          { s with comments := s.comments ++ [⟨cmid, txt, cid, uid, now, now⟩] }).1) := by
    simp only [create_comment, hc, hl, hb]
  refine ⟨_, hU, rfl,
    ⟨aid, l.board_id, uid, .comment_added,
      .obj [("card_id", .str cid), ("comment_id", .str cmid),
        ("comment_text", .str (if txt.length > 100
          then txt.take 100 ++ "..." else txt))], now⟩,
    rfl, rfl, rfl, ?_, ?_⟩
  · intro hle
    have hnot : ¬ txt.length > 100 := by omega
    show some (MVal.str (if txt.length > 100 then txt.take 100 ++ "..." else txt))
      = some (.str txt)
    rw [if_neg hnot]
  · intro hgt
    show some (MVal.str (if txt.length > 100 then txt.take 100 ++ "..." else txt))
      = some (.str (txt.take 100 ++ "..."))
    rw [if_pos hgt]

/-- Witness for C6: a short comment and a long comment on `c1`.  The
theorem is applied at a 2-character text; the short-text branch yields
the unmodified text in the detail payload. -/
theorem C6_witness :
    (state0.cards.find? (fun x => x.id == "c1") = some card1 ∧
     state0.lists.find? (fun x => x.id == card1.list_id) = some list1 ∧
     findBoardForUser state0 list1.board_id "u1" = some board1) ∧
    (∃ s', create_comment state0 "c1" ⟨"hi"⟩ "u1" "cm1" "a3" dt1 noFail =
        (.ok (⟨"cm1", "hi", "c1", "u1", dt1, dt1⟩ : Comment), s') ∧
      s'.comments = state0.comments ++ [⟨"cm1", "hi", "c1", "u1", dt1, dt1⟩] ∧
      ∃ act, s'.activity_logs = state0.activity_logs ++ [act] ∧
        act.activity_type = .comment_added ∧ act.board_id = list1.board_id ∧
        ((String.length "hi" ≤ 100 →
          detailGet act.details "comment_text" = some (.str "hi")) ∧
         (String.length "hi" > 100 →
          detailGet act.details "comment_text" =
            some (.str (String.take "hi" 100 ++ "..."))))) := by
  refine ⟨⟨by decide, by decide, by decide⟩, ?_⟩
  have h := C6_comment_truncation state0 "c1" "u1" "cm1" "a3" "hi" dt1 noFail
    card1 list1 board1 (by decide) (by decide) (by decide)
  obtain ⟨s', h1, h2, act, h3, h4, h5, h6, h7⟩ := h
  exact ⟨s', h1, h2, act, h3, h4, h5, h6, h7⟩

/-! ## C10 -/

/-- C10: `update_card` applies a supplied `list_id` verbatim, with no
check that the target list exists or is accessible: the patch lands, a
`card_moved` activity is logged against the board of the pre-patch list,
the state then violates the referential invariant that every card's
`list_id` names an existing list, and any subsequent update of or comment
on that card dereferences the missing list — an uncaught `TypeError`
(HTTP 500) in the Python code, modelled as the `internal` outcome. -/
theorem C10_unvalidated_move (s : AppState) (cid uid aid : String)
    (cu : CardUpdate) (tgt : String) (now : DT) (nf : Conn → Bool)
    (c : Card) (l : BoardList) (b : Board)
    (hc : s.cards.find? (fun x => x.id == cid) = some c)
    (hl : s.lists.find? (fun x => x.id == c.list_id) = some l)
    (hb : findBoardForUser s l.board_id uid = some b)
    (hcu : cu.list_id = some tgt)
    (htgt : ∀ x ∈ s.lists, x.id ≠ tgt) :
    ∃ s', update_card s cid cu uid aid now nf =
        (.ok (applyUpdate cu now c), s') ∧
      (applyUpdate cu now c).list_id = tgt ∧
      (∃ act, s'.activity_logs = s.activity_logs ++ [act] ∧
        act.activity_type = .card_moved ∧ act.board_id = l.board_id) ∧
      s'.lists = s.lists ∧
      (∃ cBad ∈ s'.cards, ∀ x ∈ s'.lists, x.id ≠ cBad.list_id) ∧
      (∀ cu2 aid2 now2 nf2, update_card s' cid cu2 uid aid2 now2 nf2 =
        (.error .internal, s')) ∧
      (∀ txt cmid2 aid2 now2 nf2,
        create_comment s' cid ⟨txt⟩ uid cmid2 aid2 now2 nf2 =
          (.error .internal, s')) := by
  have hre : (s.cards.map (fun x => if x.id == cid then applyUpdate cu now x
      else x)).find? (fun x => x.id == cid) = some (applyUpdate cu now c) :=
    find?_map_ite (fun x hx => hx) hc
  have hmove : (applyUpdate cu now c).list_id = tgt := by
    show cu.list_id.getD c.list_id = tgt
    rw [hcu]; rfl
  set S : AppState := (log_activity l.board_id uid
    (if cu.list_id.isSome then ActivityType.card_moved
      else ActivityType.card_updated)
    (.obj [("card_id", .str cid),
      ("card_title", .str (applyUpdate cu now c).title),
      ("changes", changesMVal cu now)]) aid now nf
    { s with cards := (List.map
        (fun x => if x.id == cid then applyUpdate cu now x else x)
        s.cards) }).1 with hS
  have hU : update_card s cid cu uid aid now nf =
      (.ok (applyUpdate cu now c), S) := by
    rw [hS]
    simp only [update_card, hc, hl, hb, hre]
  have hScards : S.cards.find? (fun x => x.id == cid) =
      some (applyUpdate cu now c) := hre
  have hSlistsEq : S.lists = s.lists := rfl
  have hSfindL : S.lists.find? (fun x => x.id == (applyUpdate cu now c).list_id)
      = none := by
    rw [List.find?_eq_none]
    intro x hx
    have hx' : x ∈ s.lists := hx
    simp only [hmove, beq_iff_eq]
    exact htgt x hx'
  refine ⟨S, hU, hmove, ?_, rfl, ?_, ?_, ?_⟩
  · refine ⟨⟨aid, l.board_id, uid, .card_moved,
      .obj [("card_id", .str cid),
        ("card_title", .str (applyUpdate cu now c).title),
        ("changes", changesMVal cu now)], now⟩, ?_, rfl, rfl⟩
    rw [hS, hcu]
    rfl
  · refine ⟨applyUpdate cu now c, ?_, ?_⟩
    · show applyUpdate cu now c ∈ List.map
        (fun x => if x.id == cid then applyUpdate cu now x else x) s.cards
      have hcmem := List.mem_of_find?_eq_some hc
      have hpc : (c.id == cid) = true := List.find?_some (p := fun x : Card => x.id == cid) hc
      have h2 := List.mem_map_of_mem
        (fun x : Card => if x.id == cid then applyUpdate cu now x else x) hcmem
      simpa [hpc] using h2
    · intro x hx
      rw [hmove]
      exact htgt x hx
  · intro cu2 aid2 now2 nf2
    simp only [update_card, hScards, hSfindL]
  · intro txt cmid2 aid2 now2 nf2
    simp only [create_comment, hScards, hSfindL]

/-- Witness for C10: moving `c1` to the nonexistent list id `ghost`
succeeds, logs `card_moved` on `b1`, breaks the referential invariant,
and makes the next update of `c1` a 500. -/
theorem C10_witness :
    (state0.cards.find? (fun x => x.id == "c1") = some card1 ∧
     state0.lists.find? (fun x => x.id == card1.list_id) = some list1 ∧
     findBoardForUser state0 list1.board_id "u1" = some board1 ∧
     (⟨none, none, some "ghost", none, none, none, none⟩ : CardUpdate).list_id
       = some "ghost" ∧
     (∀ x ∈ state0.lists, x.id ≠ "ghost")) ∧
    (∃ s', update_card state0 "c1"
        ⟨none, none, some "ghost", none, none, none, none⟩ "u1" "a4" dt1 noFail =
        (.ok (applyUpdate ⟨none, none, some "ghost", none, none, none, none⟩
          dt1 card1), s') ∧
      (applyUpdate ⟨none, none, some "ghost", none, none, none, none⟩
        dt1 card1).list_id = "ghost" ∧
      (∃ act, s'.activity_logs = state0.activity_logs ++ [act] ∧
        act.activity_type = .card_moved ∧ act.board_id = list1.board_id) ∧
      s'.lists = state0.lists ∧
      (∃ cBad ∈ s'.cards, ∀ x ∈ s'.lists, x.id ≠ cBad.list_id) ∧
      (∀ cu2 aid2 now2 nf2, update_card s' "c1" cu2 "u1" aid2 now2 nf2 =
        (.error .internal, s')) ∧
      (∀ txt cmid2 aid2 now2 nf2,
        create_comment s' "c1" ⟨txt⟩ "u1" cmid2 aid2 now2 nf2 =
          (.error .internal, s'))) :=
  ⟨⟨by decide, by decide, by decide, by decide, by decide⟩,
   C10_unvalidated_move state0 "c1" "u1" "a4"
     ⟨none, none, some "ghost", none, none, none, none⟩ "ghost" dt1 noFail
     card1 list1 board1 (by decide) (by decide) (by decide) (by decide)
     (by decide)⟩

/-! ## C5 -/

/-- C5 (evaluation of the code at the failing input): with two live
subscribers of board `b1` whose transports are perfectly healthy,
recording an activity delivers the envelope to nobody.  The envelope
embeds `activity.dict()`, whose `created_at` is a raw datetime, so
`json.dumps` raises `TypeError` for every subscriber; the bare `except`
then prunes the first subscriber from the live list, and the in-loop
removal shifts the list so the second subscriber is skipped entirely.
The activity entry itself is still persisted first, and no error reaches
the caller. -/
theorem C5_broadcast_dead_letter :
    jsonOk (activityEnvelope ⟨"a1", "b1", "u1", .list_created,
      .obj [("list_id", .str "lx")], dt0⟩) = false ∧
    (log_activity "b1" "u1" .list_created (.obj [("list_id", .str "lx")])
      "a1" dt0 noFail state5).2 = [] ∧
    ((log_activity "b1" "u1" .list_created (.obj [("list_id", .str "lx")])
      "a1" dt0 noFail state5).1).active_connections = [("b1", [2])] ∧
    ((log_activity "b1" "u1" .list_created (.obj [("list_id", .str "lx")])
      "a1" dt0 noFail state5).1).activity_logs =
      [⟨"a1", "b1", "u1", .list_created, .obj [("list_id", .str "lx")], dt0⟩] :=
  ⟨rfl, rfl, rfl, rfl⟩

/-! ## C1 -/

/-- The head step of `listMax`, phrased with the lattice maximum. -/
theorem listMax_cons (a : Rat) (l : List Rat) :
    listMax (a :: l) =
      some (match listMax l with | none => a | some m => max a m) := by
  cases hl : listMax l with
  | none => simp [listMax, hl]
  | some m => simp [listMax, hl, max_def]

/-- Appending one element to a position list takes the maximum to the
greater of the old maximum and the new element. -/
theorem listMax_append (l : List Rat) (x : Rat) :
    listMax (l ++ [x]) =
      some (match listMax l with | none => x | some m => max m x) := by
  induction l with
  | nil => rfl
  | cons a l ih =>
    rw [List.cons_append, listMax_cons, ih, listMax_cons]
    cases hl : listMax l with
    | none => simp
    | some m => simp [max_assoc]

/-- The first appended sibling sits at 1000. -/
theorem rowPos_zero : rowPos 0 = 1000 := by norm_num [rowPos]

/-- Consecutive appended siblings are spaced by exactly 1000. -/
theorem rowPos_succ (n : Nat) : rowPos (n + 1) = rowPos n + 1000 := by
  unfold rowPos; push_cast; ring

/-- The closed form is monotone step to step. -/
theorem rowPos_le (n : Nat) : rowPos n ≤ rowPos (n + 1) := by
  rw [rowPos_succ]; linarith

/-- The maximum of the first `n + 1` closed-form positions is the last
one. -/
theorem listMax_rowPos (n : Nat) :
    listMax ((List.range (n + 1)).map rowPos) = some (rowPos n) := by
  induction n with
  | zero => rfl
  | succ n ih =>
    rw [List.range_succ, List.map_append]
    simp only [List.map_cons, List.map_nil]
    rw [listMax_append, ih]
    simp [max_eq_right (rowPos_le n)]

/-- The closed-form positions climb in steps of exactly 1000. -/
theorem chain_rowPos (n : Nat) :
    List.Chain' (fun a c : Rat => c = a + 1000) ((List.range n).map rowPos) := by
  rw [List.chain'_map]
  cases n with
  | zero => simp
  | succ m =>
    rw [List.chain'_range_succ]
    intro i _
    exact rowPos_succ i

/-- The closed-form positions are strictly increasing. -/
theorem pairwise_rowPos (n : Nat) :
    List.Pairwise (fun a c : Rat => a < c) ((List.range n).map rowPos) := by
  refine List.Pairwise.map rowPos ?_ (List.pairwise_lt_range n)
  intro a c hac
  unfold rowPos
  have h : (a : Rat) < c := by exact_mod_cast hac
  linarith

/-- `create_list` never touches the boards collection. -/
theorem create_list_boards (s : AppState) (bid : String) (ld : ListCreate)
    (uid nid aid : String) (now : DT) (nf : Conn → Bool) :
    ((create_list s bid ld uid nid aid now nf).2).boards = s.boards := by
  unfold create_list
  cases findBoardForUser s bid uid <;> rfl

/-- Appending lists never touches the boards collection. -/
theorem appendLists_boards (bid uid t : String) (mkId mkActId : Nat → String)
    (now : DT) (nf : Conn → Bool) (n : Nat) (s : AppState) :
    (appendLists bid uid t mkId mkActId now nf n s).boards = s.boards := by
  induction n with
  | zero => rfl
  | succ n ih =>
    show ((create_list (appendLists bid uid t mkId mkActId now nf n s) bid
      ⟨t, none⟩ uid (mkId n) (mkActId n) now nf).2).boards = s.boards
    rw [create_list_boards]
    exact ih

/-- The access guard reads only the boards collection. -/
theorem findBoardForUser_congr (s s' : AppState) (bid uid : String)
    (h : s'.boards = s.boards) :
    findBoardForUser s' bid uid = findBoardForUser s bid uid := by
  unfold findBoardForUser; rw [h]

/-- Result of a successful positionless or explicit-position list
creation, with the engine's position expression left symbolic. -/
theorem create_list_result (s : AppState) (bid t uid nid aid : String)
    (posq : Option Rat) (now : DT) (nf : Conn → Bool) (b : Board)
    (hb : findBoardForUser s bid uid = some b) :
    ∃ s', create_list s bid ⟨t, posq⟩ uid nid aid now nf =
      (.ok (⟨nid, t, bid,
        (match posq with
         | some p => p
         | none =>
           match listMax ((s.lists.filter (fun l => l.board_id == bid)).map
               (fun l => l.position)) with
           | some m => m + 1000
           | none => 1000), now, now⟩ : BoardList), s') :=
  ⟨_, by simp only [create_list, hb]; rfl⟩

/-- State left behind by a successful positionless list creation. -/
theorem create_list_state (s : AppState) (bid t uid nid aid : String)
    (now : DT) (nf : Conn → Bool) (b : Board)
    (hb : findBoardForUser s bid uid = some b) :
    ((create_list s bid ⟨t, none⟩ uid nid aid now nf).2).lists =
      s.lists ++ [⟨nid, t, bid,
        (match listMax ((s.lists.filter (fun l => l.board_id == bid)).map
            (fun l => l.position)) with
         | some m => m + 1000
         | none => 1000), now, now⟩] := by
  simp only [create_list, hb]
  rfl

/-- Result of a successful card creation, position left symbolic. -/
theorem create_card_result (s : AppState) (lid : String) (cdta : CardCreate)
    (uid nid aid : String) (now : DT) (nf : Conn → Bool) (l : BoardList)
    (b : Board)
    (hl : s.lists.find? (fun x => x.id == lid) = some l)
    (hb : findBoardForUser s l.board_id uid = some b) :
    ∃ s', create_card s lid cdta uid nid aid now nf =
      (.ok (⟨nid, cdta.title, cdta.description, lid,
        (match cdta.position with
         | some p => p
         | none =>
           match listMax ((s.cards.filter (fun c => c.list_id == lid)).map
               (fun c => c.position)) with
           | some m => m + 1000
           | none => 1000), cdta.labels, cdta.assignees, cdta.due_date,
        now, now⟩ : Card), s') :=
  ⟨_, by simp only [create_card, hl, hb]; rfl⟩

/-- C1: the position engine.  Creating a list (or a card) without an
explicit position assigns 1000 when the board (list) has no sibling and
the maximum sibling position plus 1000 otherwise; an explicit position is
used verbatim; and appending `n` lists in sequence to an empty board
yields exactly the positions 1000, 2000, ..., n·1000 — strictly
increasing and spaced by exactly 1000. -/
theorem C1_next_position (s : AppState) (bid uid : String) (now : DT)
    (nf : Conn → Bool) (b : Board)
    (hb : findBoardForUser s bid uid = some b) :
    (∀ t nid aid, (s.lists.filter (fun l => l.board_id == bid)) = [] →
      ∃ s', create_list s bid ⟨t, none⟩ uid nid aid now nf =
        (.ok (⟨nid, t, bid, 1000, now, now⟩ : BoardList), s')) ∧
    (∀ t nid aid m,
      listMax ((s.lists.filter (fun l => l.board_id == bid)).map
        (fun l => l.position)) = some m →
      ∃ s', create_list s bid ⟨t, none⟩ uid nid aid now nf =
        (.ok (⟨nid, t, bid, m + 1000, now, now⟩ : BoardList), s')) ∧
    (∀ t nid aid p, ∃ s', create_list s bid ⟨t, some p⟩ uid nid aid now nf =
      (.ok (⟨nid, t, bid, p, now, now⟩ : BoardList), s')) ∧
    (∀ lid (l : BoardList) (cdta : CardCreate) nid aid,
      s.lists.find? (fun x => x.id == lid) = some l → l.board_id = bid →
      (((s.cards.filter (fun c => c.list_id == lid)) = [] →
        cdta.position = none →
        ∃ s', create_card s lid cdta uid nid aid now nf =
          (.ok (⟨nid, cdta.title, cdta.description, lid, 1000, cdta.labels,
            cdta.assignees, cdta.due_date, now, now⟩ : Card), s')) ∧
      (∀ m, listMax ((s.cards.filter (fun c => c.list_id == lid)).map
          (fun c => c.position)) = some m → cdta.position = none →
        ∃ s', create_card s lid cdta uid nid aid now nf =
          (.ok (⟨nid, cdta.title, cdta.description, lid, m + 1000,
            cdta.labels, cdta.assignees, cdta.due_date, now, now⟩ : Card), s')) ∧
      (∀ p, cdta.position = some p →
        ∃ s', create_card s lid cdta uid nid aid now nf =
          (.ok (⟨nid, cdta.title, cdta.description, lid, p, cdta.labels,
            cdta.assignees, cdta.due_date, now, now⟩ : Card), s')))) ∧
    ((s.lists.filter (fun l => l.board_id == bid)) = [] →
      ∀ n t mkId mkActId,
        ((appendLists bid uid t mkId mkActId now nf n s).lists.filter
          (fun l => l.board_id == bid)).map (fun l => l.position) =
          (List.range n).map rowPos ∧
        rowPos 0 = 1000 ∧
        List.Chain' (fun a c : Rat => c = a + 1000)
          ((List.range n).map rowPos) ∧
        List.Pairwise (fun a c : Rat => a < c) ((List.range n).map rowPos)) := by
  refine ⟨?_, ?_, ?_, ?_, ?_⟩
  · intro t nid aid hemp
    have h := create_list_result s bid t uid nid aid none now nf b hb
    rw [hemp] at h
    simpa [listMax] using h
  · intro t nid aid m hm
    have h := create_list_result s bid t uid nid aid none now nf b hb
    rw [hm] at h
    simpa using h
  · intro t nid aid p
    have h := create_list_result s bid t uid nid aid (some p) now nf b hb
    simpa using h
  · intro lid l cdta nid aid hl heq
    have hbl : findBoardForUser s l.board_id uid = some b := by rw [heq]; exact hb
    refine ⟨?_, ?_, ?_⟩
    · intro hemp hpos
      have h := create_card_result s lid cdta uid nid aid now nf l b hl hbl
      rw [hemp, hpos] at h
      simpa [listMax] using h
    · intro m hm hpos
      have h := create_card_result s lid cdta uid nid aid now nf l b hl hbl
      rw [hm, hpos] at h
      simpa using h
    · intro p hpos
      have h := create_card_result s lid cdta uid nid aid now nf l b hl hbl
      rw [hpos] at h
      simpa using h
  · intro hemp n t mkId mkActId
    refine ⟨?_, rowPos_zero, chain_rowPos n, pairwise_rowPos n⟩
    induction n with
    | zero => simp [appendLists, hemp]
    | succ n ih =>
      have hbn : findBoardForUser (appendLists bid uid t mkId mkActId now nf n s)
          bid uid = some b :=
        (findBoardForUser_congr s _ bid uid
          (appendLists_boards bid uid t mkId mkActId now nf n s)).trans hb
      show (((create_list (appendLists bid uid t mkId mkActId now nf n s) bid
        ⟨t, none⟩ uid (mkId n) (mkActId n) now nf).2).lists.filter
          (fun l => l.board_id == bid)).map (fun l => l.position) =
        (List.range (n + 1)).map rowPos
      rw [create_list_state _ _ _ _ _ _ _ _ b hbn, List.filter_append,
        List.map_append, ih, List.range_succ, List.map_append]
      congr 1
      simp only [List.filter, beq_self_eq_true, List.map]
      cases n with
      | zero => simp [listMax, rowPos_zero]
      | succ m =>
        rw [listMax_rowPos m]
        simp [rowPos_succ]

/-- Witness for C1: on a board with no lists, the theorem applies; the
closed form evaluated at three appends is the position sequence 1000,
2000, 3000. -/
theorem C1_witness :
    (findBoardForUser stateC1 "b1" "u1" = some board1) ∧
    ((List.range 3).map rowPos = [1000, 2000, 3000]) ∧
    ((stateC1.lists.filter (fun l => l.board_id == "b1")) = [] →
      ∀ n t mkId mkActId,
        ((appendLists "b1" "u1" t mkId mkActId dt0 noFail n stateC1).lists.filter
          (fun l => l.board_id == "b1")).map (fun l => l.position) =
          (List.range n).map rowPos ∧
        rowPos 0 = 1000 ∧
        List.Chain' (fun a c : Rat => c = a + 1000)
          ((List.range n).map rowPos) ∧
        List.Pairwise (fun a c : Rat => a < c) ((List.range n).map rowPos)) :=
  ⟨by decide,
   by show [rowPos 0, rowPos 1, rowPos 2] = [1000, 2000, 3000]; norm_num [rowPos],
   (C1_next_position stateC1 "b1" "u1" dt0 noFail board1 (by decide)).2.2.2.2⟩

/-! ## C7 -/

/-- C7: for an authorized user, search returns exactly the cards whose
owning list belongs to the board and that satisfy every supplied filter —
case-insensitive substring match of the query against the title or the
description, label set intersecting the supplied label set, assignee set
intersecting the supplied assignee set — sorted ascending by position;
cards whose list is not one of the board's lists never appear. -/
theorem C7_search_characterization (s : AppState) (bid uid : String)
    (q labels assignees : Option String) (b : Board)
    (hb : findBoardForUser s bid uid = some b) :
    ∃ out, search_cards s bid uid q labels assignees = .ok out ∧
      List.Sorted (fun a c : Card => a.position ≤ c.position) out ∧
      ∀ c : Card, c ∈ out ↔
        (c ∈ s.cards ∧
         (∃ l ∈ s.lists, l.board_id = bid ∧ l.id = c.list_id) ∧
         (∀ qs, truthy q = some qs →
           (ciContains c.title qs = true ∨
            ∃ d, c.description = some d ∧ ciContains d qs = true)) ∧
         (∀ ls, truthy labels = some ls →
           ∃ x ∈ c.labels, x ∈ pySplitComma ls) ∧
         (∀ asg, truthy assignees = some asg →
           ∃ x ∈ c.assignees, x ∈ pySplitComma asg)) := by
  have hA : ∀ c : Card,
      (((s.lists.filter (fun l => l.board_id == bid)).map
        (fun l => l.id)).contains c.list_id = true) ↔
      (∃ l ∈ s.lists, l.board_id = bid ∧ l.id = c.list_id) := by
    intro c
    simp [List.mem_filter, and_assoc]
  have hB : ∀ c : Card,
      ((match truthy q with
        | some qs => ciContains c.title qs ||
            (match c.description with | some d => ciContains d qs | none => false)
        | none => true) = true) ↔
      (∀ qs, truthy q = some qs →
        (ciContains c.title qs = true ∨
         ∃ d, c.description = some d ∧ ciContains d qs = true)) := by
    intro c
    cases hq : truthy q with
    | none => simp
    | some qs =>
      cases hd : c.description with
      | none => simp
      | some d => simp
  have hC : ∀ c : Card,
      ((match truthy labels with
        | some ls => c.labels.any (fun x => (pySplitComma ls).contains x)
        | none => true) = true) ↔
      (∀ ls, truthy labels = some ls → ∃ x ∈ c.labels, x ∈ pySplitComma ls) := by
    intro c
    cases hl2 : truthy labels with
    | none => simp
    | some ls => simp [List.any_eq_true]
  have hD : ∀ c : Card,
      ((match truthy assignees with
        | some asg => c.assignees.any (fun x => (pySplitComma asg).contains x)
        | none => true) = true) ↔
      (∀ asg, truthy assignees = some asg →
        ∃ x ∈ c.assignees, x ∈ pySplitComma asg) := by
    intro c
    cases ha2 : truthy assignees with
    | none => simp
    | some asg => simp [List.any_eq_true]
  refine ⟨List.insertionSort (fun a c => a.position ≤ c.position)
    (s.cards.filter (fun c =>
      ((s.lists.filter (fun l => l.board_id == bid)).map
        (fun l => l.id)).contains c.list_id &&
      (match truthy q with
       | some qs => ciContains c.title qs ||
           (match c.description with | some d => ciContains d qs | none => false)
       | none => true) &&
      (match truthy labels with
       | some ls => c.labels.any (fun x => (pySplitComma ls).contains x)
       | none => true) &&
      (match truthy assignees with
       | some asg => c.assignees.any (fun x => (pySplitComma asg).contains x)
       | none => true))), ?_, ?_, ?_⟩
  · simp only [search_cards, hb]
  · exact List.sorted_insertionSort _ _
  · intro c
    rw [(List.perm_insertionSort _ _).mem_iff, List.mem_filter]
    simp only [Bool.and_eq_true]
    rw [hA c, hB c, hC c, hD c]
    simp [and_assoc]

/-- Witness for C7: searching board `b1` with label filter `urgent`
yields exactly `card1` (the matching card of this board), sorted; `card3`
also carries the label but lives on another board's list and is
excluded. -/
theorem C7_witness :
    (findBoardForUser state0 "b1" "u1" = some board1) ∧
    (search_cards state0 "b1" "u1" none (some "urgent") none = .ok [card1]) ∧
    (∃ out, search_cards state0 "b1" "u1" none (some "urgent") none = .ok out ∧
      List.Sorted (fun a c : Card => a.position ≤ c.position) out ∧
      ∀ c : Card, c ∈ out ↔
        (c ∈ state0.cards ∧
         (∃ l ∈ state0.lists, l.board_id = "b1" ∧ l.id = c.list_id) ∧
         (∀ qs, truthy none = some qs →
           (ciContains c.title qs = true ∨
            ∃ d, c.description = some d ∧ ciContains d qs = true)) ∧
         (∀ ls, truthy (some "urgent") = some ls →
           ∃ x ∈ c.labels, x ∈ pySplitComma ls) ∧
         (∀ asg, truthy none = some asg →
           ∃ x ∈ c.assignees, x ∈ pySplitComma asg))) :=
  ⟨by decide, by decide,
   C7_search_characterization state0 "b1" "u1" none (some "urgent") none
     board1 (by decide)⟩

/-! ## C8 -/

/-- Sanity check that the parser model accepts the non-canonical shapes
`datetime.fromisoformat` accepts, so none of them can be certified
unparsable by `mongoWF`: date-only, short time, full time without an
offset, a non-UTC offset, a space separator with a fraction, a `Z`
suffix (rewritten before parsing), a basic-format date, and a week
date. -/
theorem fromisoformat_accepts_python_shapes :
    ((fromisoformat (pyReplaceZ ("2024-01-15"))).isSome = true) ∧
    ((fromisoformat (pyReplaceZ ("2024-01-15T12:30"))).isSome = true) ∧
    ((fromisoformat (pyReplaceZ ("2024-01-15T12:00:00"))).isSome = true) ∧
    ((fromisoformat (pyReplaceZ ("2024-01-15T12:00:00+05:30"))).isSome = true) ∧
    ((fromisoformat (pyReplaceZ ("2024-01-15 12:00:00.123456"))).isSome = true) ∧
    ((fromisoformat (pyReplaceZ ("2024-01-15T12:00:00Z"))).isSome = true) ∧
    ((fromisoformat (pyReplaceZ ("20240115"))).isSome = true) ∧
    ((fromisoformat (pyReplaceZ ("2024-W03-1"))).isSome = true) := by
  refine ⟨rfl, rfl, rfl, rfl, rfl, rfl, rfl, rfl⟩

end Kanban
